import Mathlib

/-!
Verification of the TokenWise Solana dashboard backend core.

This file gives a shallow embedding, in Lean 4, of the core components of the
backend: the WebSocket connection registry and monitoring orchestrator
(`backend/api/websocket_manager.py`, class `WalletManager`), the holder
discovery engine (`backend/services/wallet_discovery.py`), the chain query
client retry loop (`backend/services/solana_rpc.py`, `call_solana_rpc`), and
the synthetic feed generator
(`WalletManager._generate_and_broadcast_mock_transaction`).

Modelling conventions:
- Python `float` balances, amounts and delays are modelled as exact rationals
  (`ℚ`); Python `dict`s (which preserve insertion order) are modelled as
  association lists in insertion order.
- Randomness (`random.choice`, `random.uniform`) is modelled by explicit
  oracle parameters, constrained by hypotheses matching the documented ranges.
- `await`-able external effects (RPC responses, database success/failure) are
  modelled by explicit response scripts / oracles passed as arguments.
- Python exceptions are modelled with `Except` / `Option`; a caught exception
  corresponds to a total Lean function returning the caught-and-logged
  outcome, so "no exception escapes" is totality of the embedding.
-/

namespace TokenWise

/-! ## Connection registry and monitoring orchestrator
Embedding of `WalletManager` from `backend/api/websocket_manager.py`.

A `Conn` is one live WebSocket connection: `cid` models the generated
`uuid4` client id, `ws` is the identity of the transport object (Python
`WebSocket` object identity, used by `disconnect`'s `ws == websocket`
comparison), and `sendOk` records whether `websocket.send_text` succeeds
(a closed transport raises `RuntimeError`, caught by the manager). -/

structure Conn where
  cid : Nat
  ws : Nat
  sendOk : Bool
deriving DecidableEq, Repr

/-- State of the `WalletManager` singleton: the insertion-ordered
`active_connections` dict, the `is_monitoring` flag, whether `monitor_task`
is not `None`, a ghost count of live monitor-loop tasks, and the fresh-id
counter backing `uuid4` generation in `connect`. -/
structure MState where
  conns : List Conn
  is_monitoring : Bool
  monitor_task : Bool
  tasks : Nat
  nextId : Nat
deriving DecidableEq, Repr

/-- Initial manager state (`WalletManager.__init__`). -/
def initState : MState :=
  { conns := [], is_monitoring := false, monitor_task := false, tasks := 0, nextId := 0 }

/-- `WalletManager.connect`: accept the transport, generate a fresh client id,
store the mapping. It never touches the monitoring flag. -/
def mConnect (w : Nat) (ok : Bool) (s : MState) : MState :=
  { s with conns := s.conns ++ [⟨s.nextId, w, ok⟩], nextId := s.nextId + 1 }

/-- `WalletManager.stop_monitoring`: if monitoring, clear the flag, cancel and
await the task (one live task removed) and set `monitor_task` to `None`;
otherwise only log. -/
def mStop (s : MState) : MState :=
  if s.is_monitoring then
    { s with is_monitoring := false,
             tasks := if s.monitor_task then s.tasks - 1 else s.tasks,
             monitor_task := false }
  else s

/-- `WalletManager.start_monitoring`: if not monitoring, set the flag and
spawn the periodic loop as a background task; otherwise only log. -/
def mStart (s : MState) : MState :=
  if s.is_monitoring then s
  else { s with is_monitoring := true, monitor_task := true, tasks := s.tasks + 1 }

/-- `WalletManager.disconnect(websocket)`: remove the first registry entry
whose transport equals the given one (Python `ws == websocket` is object
identity), then, if the registry is empty and monitoring is active, stop
monitoring. -/
def mDisconnect (w : Nat) (s : MState) : MState :=
  let cs := s.conns.eraseP (fun c => c.ws == w)
  let s' := { s with conns := cs }
  if cs.isEmpty && s'.is_monitoring then mStop s' else s'

/-- Predicate for a connection whose `send_text` raises (`RuntimeError`). -/
def sendFails (c : Conn) : Bool := !c.sendOk

/-- `WalletManager.broadcast(message)`: iterate over a snapshot copy
(`list(self.active_connections.values())`) of the registry, collect every
connection whose send fails, and disconnect each of them after the pass.
The function is total: transport failures are caught, never re-raised. -/
def mBroadcast (s : MState) : MState :=
  (s.conns.filter sendFails).foldl (fun t c => mDisconnect c.ws t) s

/-- Number of messages delivered by one `broadcast` pass: one per snapshot
connection whose `send_text` succeeds. -/
def broadcastDelivered (s : MState) : Nat :=
  (s.conns.filter (fun c => c.sendOk)).length

/-- External events driving the `WalletManager` state machine. -/
inductive Ev where
  | connect (w : Nat) (ok : Bool)
  | disconnect (w : Nat)
  | start
  | stop
  | broadcastEv
deriving DecidableEq, Repr

/-- One step of the manager state machine. -/
def mStep (s : MState) : Ev → MState
  | .connect w ok => mConnect w ok s
  | .disconnect w => mDisconnect w s
  | .start => mStart s
  | .stop => mStop s
  | .broadcastEv => mBroadcast s

/-- Run the manager from the initial state over a list of events. -/
def mRun (evs : List Ev) : MState := evs.foldl mStep initState

/-- Task-accounting invariant of the manager: `monitor_task` is set exactly
while monitoring, and exactly one live monitor-loop task exists while
monitoring (none otherwise). -/
def mInv (s : MState) : Prop :=
  s.monitor_task = s.is_monitoring ∧ s.tasks = (if s.is_monitoring then 1 else 0)

/-! ## Chain query client
Embedding of `call_solana_rpc` from `backend/services/solana_rpc.py`.

One HTTP round trip is modelled by an `RpcResp`; the response received on
attempt `n` (0-based) is `script n`. `clientErr` covers every
`aiohttp.ClientError` (transport failures and the `ClientResponseError`
raised by `response.raise_for_status()` on non-429 HTTP error statuses),
`timeoutErr` is `asyncio.TimeoutError`, `rpcError` is a JSON body containing
an `error` object, and `ok` is a successful body whose `result` field is
returned. -/

inductive RpcResp (α : Type) where
  | status429
  | clientErr (emsg : String)
  | timeoutErr
  | rpcError (code : Int) (msg : String)
  | ok (v : α)
deriving DecidableEq, Repr

/-- A raised `fastapi.HTTPException`: status code and detail string. -/
structure RpcFailure where
  status_code : Nat
  detail : String
deriving DecidableEq, Repr

deriving instance DecidableEq for Except

/-- Python `str` of a Starlette `HTTPException` (its `__str__` is
`f"{status_code}: {detail}"`), as interpolated into retry-exhaustion
messages by `call_solana_rpc`'s generic `except` clause. -/
def httpExceptionStr (f : RpcFailure) : String :=
  toString f.status_code ++ ": " ++ f.detail

/-- Detail of the `HTTPException` raised when the response body carries an
RPC-level `error` object. -/
def rpcErrorDetail (code : Int) (msg : String) : String :=
  "RPC Error (" ++ toString code ++ "): " ++ msg

/-- The `for attempt in range(retries)` loop body of `call_solana_rpc`.
`fuel` is the number of loop iterations left (`retries - attempt`); `delays`
accumulates every `asyncio.sleep` performed, in order. Each arm mirrors the
source: HTTP 429 sleeps `initial_delay * 2 ** attempt` and `continue`s (even
on the last attempt); `aiohttp.ClientError` / `asyncio.TimeoutError` sleep
and retry only when `attempt < retries - 1`, otherwise raising 503 / 504;
a body with an `error` object raises `HTTPException(500, ...)` inside the
`try`, which is caught by the function's own `except Exception` clause and
treated like any unexpected error (sleep and retry, or raise 500 after the
last attempt); a successful body returns `result['result']` at once. Falling
out of the loop (429 on the last attempt) raises the terminal 500. -/
def rpcGo {α : Type} (method : String) (script : Nat → RpcResp α)
    (retries : Nat) (initialDelay : ℚ) :
    Nat → Nat → List ℚ → Except RpcFailure α × List ℚ
  | _attempt, 0, delays =>
    (.error ⟨500, "RPC call " ++ method ++ " failed after " ++
        toString retries ++ " attempts."⟩, delays)
  | attempt, fuel + 1, delays =>
    match script attempt with
    | .ok v => (.ok v, delays)
    | .status429 =>
      rpcGo method script retries initialDelay (attempt + 1) fuel
        (delays ++ [initialDelay * 2 ^ attempt])
    | .clientErr emsg =>
      if attempt < retries - 1 then
        rpcGo method script retries initialDelay (attempt + 1) fuel
          (delays ++ [initialDelay * 2 ^ attempt])
      else
        (.error ⟨503, "Failed to connect to Solana RPC after multiple retries: "
            ++ emsg⟩, delays)
    | .timeoutErr =>
      if attempt < retries - 1 then
        rpcGo method script retries initialDelay (attempt + 1) fuel
          (delays ++ [initialDelay * 2 ^ attempt])
      else
        (.error ⟨504, "Solana RPC call timed out after multiple retries."⟩, delays)
    | .rpcError code msg =>
      if attempt < retries - 1 then
        rpcGo method script retries initialDelay (attempt + 1) fuel
          (delays ++ [initialDelay * 2 ^ attempt])
      else
        (.error ⟨500, "An unexpected error occurred after multiple retries: " ++
            httpExceptionStr ⟨500, rpcErrorDetail code msg⟩⟩, delays)

/-- `call_solana_rpc(method, params, timeout=30, retries=3, initial_delay=5.0)`:
returns the successful `result` or the raised `HTTPException`, together with
the list of backoff delays slept. The source's defaults are
`retries = 3`, `initialDelay = 5`. -/
def callSolanaRpc {α : Type} (method : String) (script : Nat → RpcResp α)
    (retries : Nat) (initialDelay : ℚ) : Except RpcFailure α × List ℚ :=
  rpcGo method script retries initialDelay 0 retries []

/-! ## Holder discovery engine
Embedding of `discover_top_wallets` from
`backend/services/wallet_discovery.py`, together with the persistence
operations of `backend/services/db_service.py` that it calls and the
Pydantic models of `backend/models/pydantic_models.py` that it builds. -/

/-- `TokenHolder` Pydantic model (fields used by discovery). -/
structure TokenHolder where
  owner : String
  address : String
  balance : ℚ
  ui_amount : ℚ
  decimals : Nat
deriving DecidableEq, Repr

/-- `TokenHolderSnapshot` Pydantic model. `last_updated` is an abstract
timestamp. -/
structure TokenHolderSnapshot where
  token_address : String
  holders : List TokenHolder
  total_supply : ℚ
  holder_count : Nat
  last_updated : Nat
deriving DecidableEq, Repr

/-- `WalletTracker` Pydantic model (fields set by discovery; `balance` and
`token_amount` are both assigned the holder's balance, mirroring the source). -/
structure WalletTracker where
  address : String
  balance : ℚ
  token_amount : ℚ
deriving DecidableEq, Repr

/-- One raw `getProgramAccounts` record. `owner` and `amount` are `Option`s:
`none` models a record whose
`account.data.parsed.info.owner` / `...tokenAmount.amount` access or `int()`
conversion raises (KeyError / ValueError) when the loop reaches it. An
`owner` of `""` models a falsy owner value, skipped by `if owner and ...`. -/
structure RawAccount where
  pubkey : String
  owner : Option String
  amount : Option Int
deriving DecidableEq, Repr

/-- A raw account whose field accesses all succeed. -/
structure ParsedAccount where
  pubkey : String
  owner : String
  amount : Int
deriving DecidableEq, Repr

/-- Field extraction for one account record; `none` is the raised exception. -/
def parseAccount (a : RawAccount) : Option ParsedAccount :=
  match a.owner, a.amount with
  | some o, some n => some ⟨a.pubkey, o, n⟩
  | _, _ => none

/-- Parse every account record; the whole run aborts (exception caught by the
outer `except`) if any record fails, which in the source happens before any
database write. -/
def parseAll : List RawAccount → Option (List ParsedAccount)
  | [] => some []
  | a :: l =>
    match parseAccount a, parseAll l with
    | some p, some ps => some (p :: ps)
    | _, _ => none

/-- Result of `get_token_supply(mint)` when non-`None`:
the `value.uiAmount` and `value.decimals` fields. -/
structure SupplyInfo where
  uiAmount : ℚ
  decimals : Nat
deriving DecidableEq, Repr

/-- `ui_amount = float(token_amount_raw) / (10 ** token_decimals)`. -/
def uiAmt (decimals : Nat) (amt : Int) : ℚ := (amt : ℚ) / 10 ^ decimals

/-- One entry of the `owner_balances` dict paired with its
`owner_token_accounts` representative, in dict insertion (first-seen) order. -/
structure Agg where
  owner : String
  balance : ℚ
  tokenAccount : String
deriving DecidableEq, Repr

/-- Process one account in the aggregation loop: if the owner is truthy and
the UI amount positive, add the amount to the owner's running balance
(creating the entry at the end, in first-seen order) and record the first
token account seen for that owner. -/
def addAcct (decimals : Nat) (acc : List Agg) (a : ParsedAccount) : List Agg :=
  let ui := uiAmt decimals a.amount
  if a.owner ≠ "" ∧ 0 < ui then
    if acc.any (fun e => e.owner == a.owner) then
      acc.map (fun e => if e.owner == a.owner then { e with balance := e.balance + ui } else e)
    else acc ++ [⟨a.owner, ui, a.pubkey⟩]
  else acc

/-- The aggregation loop over all parsed accounts. -/
def aggregate (decimals : Nat) (l : List ParsedAccount) : List Agg :=
  l.foldl (addAcct decimals) []

/-- Lookup of one owner's entry in the aggregation state
(`owner_balances[owner]` / `owner_token_accounts[owner]`). -/
def findAgg (owner : String) (acc : List Agg) : Option Agg :=
  acc.find? (fun e => e.owner == owner)

/-- The running balance `owner_balances[owner]` (a `defaultdict(float)`
defaults to `0.0`). -/
def balOf (owner : String) (acc : List Agg) : ℚ :=
  match findAgg owner acc with
  | some e => e.balance
  | none => 0

/-- The representative token account `owner_token_accounts.get(owner)`. -/
def tokOf (owner : String) (acc : List Agg) : Option String :=
  (findAgg owner acc).map (fun e => e.tokenAccount)

/-- Whether one account contributes to `owner`'s aggregate: it belongs to
`owner` and its UI amount is positive. (For a non-empty `owner` this is the
loop guard `if owner and ui_amount > 0`.) -/
def contribCond (decimals : Nat) (owner : String) (a : ParsedAccount) : Bool :=
  a.owner == owner && decide (0 < uiAmt decimals a.amount)

/-- The accounts of `owner` with positive UI amount, in input order. -/
def posAccounts (decimals : Nat) (owner : String) (l : List ParsedAccount) :
    List ParsedAccount :=
  l.filter (contribCond decimals owner)

/-- The sum of `owner`'s positive UI amounts. -/
def posSum (decimals : Nat) (owner : String) (l : List ParsedAccount) : ℚ :=
  ((posAccounts decimals owner l).map (fun a => uiAmt decimals a.amount)).sum

/-- Build a `TokenHolder` from one aggregated entry (`balance` and
`ui_amount` are both the summed balance; `address` is the representative
token account, present whenever the entry exists). -/
def toHolder (decimals : Nat) (e : Agg) : TokenHolder :=
  ⟨e.owner, e.tokenAccount, e.balance, e.balance, decimals⟩

/-- `aggregated_holders`: every owner entry with positive balance, in
first-seen order. -/
def discoverHolders (decimals : Nat) (parsed : List ParsedAccount) : List TokenHolder :=
  ((aggregate decimals parsed).filter (fun e => 0 < e.balance)).map (toHolder decimals)

/-- Insert a holder into a descending-sorted list, after every element of
strictly greater balance and before the first element of less-or-equal
balance. -/
def insertDesc (x : TokenHolder) : List TokenHolder → List TokenHolder
  | [] => [x]
  | y :: ys => if x.balance < y.balance then y :: insertDesc x ys else x :: y :: ys

/-- Python's `sorted(aggregated_holders, key=lambda x: x.balance,
reverse=True)`. Python's sort is stable; a stable sort has a unique result
(a sorted permutation whose ties keep their original relative order), so
this insertion formulation is extensionally the source's Timsort. -/
def pySortedDesc : List TokenHolder → List TokenHolder
  | [] => []
  | x :: xs => insertDesc x (pySortedDesc xs)

/-- The `token_decimals` computation (`0` when supply info is unavailable). -/
def supplyDecimals (supply : Option SupplyInfo) : Nat :=
  match supply with
  | some s => s.decimals
  | none => 0

/-- The `current_total_supply` computation (`0.0` when unavailable). -/
def supplyTotal (supply : Option SupplyInfo) : ℚ :=
  match supply with
  | some s => s.uiAmount
  | none => 0

/-- The snapshot built by a successful discovery computation:
sorted descending by balance (stable), truncated to `top_n`,
with `holder_count = len(top_n_holders)`. -/
def discoverSnapshot (mint : String) (top_n : Nat) (parsed : List ParsedAccount)
    (supply : Option SupplyInfo) (now : Nat) : TokenHolderSnapshot :=
  let holders := (pySortedDesc (discoverHolders (supplyDecimals supply) parsed)).take top_n
  { token_address := mint
    holders := holders
    total_supply := supplyTotal supply
    holder_count := holders.length
    last_updated := now }

/-- The persisted collections touched by discovery: the `token_holders`
collection (snapshots) and the `wallets` collection (trackers), each as a
document list in insertion order. -/
structure DbState where
  token_holders : List TokenHolderSnapshot
  wallets : List WalletTracker
deriving DecidableEq, Repr

/-- `db_service.get_token_holder_snapshot`: `find_one` keyed on
`token_address` (first matching document). -/
def findSnapshot (mint : String) (db : DbState) : Option TokenHolderSnapshot :=
  db.token_holders.find? (fun d => d.token_address == mint)

/-- Success/failure oracle for the database operations of one discovery run:
`snapOk` is whether the snapshot upsert succeeds, `trackerOk i` whether the
`i`-th wallet-tracker upsert succeeds. `db_service` catches every exception
from a failed operation, logs it and returns `False`; a failed operation
performs no write. -/
structure DbOracle where
  snapOk : Bool
  trackerOk : Nat → Bool

/-- `db_service.update_token_holder_snapshot`: `update_one` keyed on
`token_address` with `upsert=True` — replace the first matching document or
append. Returns the updated collection and whether an error was caught. -/
def updateTokenHolderSnapshot (ok : Bool) (snap : TokenHolderSnapshot)
    (db : DbState) : DbState × Bool :=
  if ok then
    if db.token_holders.any (fun d => d.token_address == snap.token_address) then
      let hs := db.token_holders.replaceF
        (fun d => if d.token_address == snap.token_address then some snap else none)
      ({ db with token_holders := hs }, false)
    else ({ db with token_holders := db.token_holders ++ [snap] }, false)
  else (db, true)

/-- `db_service.update_or_insert_wallet_tracker`: `update_one` keyed on
`address` with `upsert=True`. -/
def updateOrInsertWalletTracker (ok : Bool) (w : WalletTracker)
    (db : DbState) : DbState × Bool :=
  if ok then
    if db.wallets.any (fun d => d.address == w.address) then
      let ws := db.wallets.replaceF
        (fun d => if d.address == w.address then some w else none)
      ({ db with wallets := ws }, false)
    else ({ db with wallets := db.wallets ++ [w] }, false)
  else (db, true)

/-- The `for holder_model in top_n_holders` upsert loop, one holder at a
time: builds `WalletTracker(address=holder.owner, balance=holder.balance,
token_amount=holder.balance)` and upserts it, threading the database state,
the position `i` into the tracker oracle, and the or of caught-error flags. -/
def writeTrackersGo (oracle : DbOracle) :
    List TokenHolder → Nat → DbState → Bool → DbState × Bool
  | [], _i, db, err => (db, err)
  | h :: hs, i, db, err =>
    let r := updateOrInsertWalletTracker (oracle.trackerOk i)
      ⟨h.owner, h.balance, h.balance⟩ db
    writeTrackersGo oracle hs (i + 1) r.1 (err || r.2)

/-- The `for holder_model in top_n_holders` upsert loop. -/
def writeTrackers (oracle : DbOracle) (holders : List TokenHolder) (db : DbState) :
    DbState × Bool :=
  writeTrackersGo oracle holders 0 db false

/-- Outcome of one discovery run: the resulting database state, whether any
error was caught and logged anywhere during the run (in `discover`'s own
`except` clauses or inside `db_service`), and whether the run was abandoned
by an exception reaching `discover`'s `except` clauses. -/
structure DiscoverResult where
  db : DbState
  errored : Bool
  aborted : Bool
deriving Repr

/-- `discover_top_wallets(mint_address, top_n)`. Inputs are the effects of the
run: `rpc` is the outcome of `call_solana_rpc("getProgramAccounts", ...)`
(`ok none` models a JSON `null` result, `ok (some l)` a list result, `error`
the raised `HTTPException`); `supply` is the outcome of
`get_token_supply(mint)`, which catches its own errors and returns `None`;
`oracle` drives the database writes; `db` is the persisted state before the
run. The function is total: every exception raised in the body is caught by
the trailing `except HTTPException` / `except Exception` clauses. -/
def discover_top_wallets (mint : String) (top_n : Nat)
    (rpc : Except RpcFailure (Option (List RawAccount)))
    (supply : Option SupplyInfo) (now : Nat)
    (oracle : DbOracle) (db : DbState) : DiscoverResult :=
  match rpc with
  | .error _ => ⟨db, true, true⟩
  | .ok acctOpt =>
    let accounts := acctOpt.getD []
    if accounts.isEmpty then ⟨db, false, false⟩
    else
      match parseAll accounts with
      | none => ⟨db, true, true⟩
      | some parsed =>
        let snap := discoverSnapshot mint top_n parsed supply now
        let (db1, e1) := updateTokenHolderSnapshot oracle.snapOk snap db
        let (db2, e2) := writeTrackers oracle snap.holders db1
        ⟨db2, e1 || e2, false⟩

/-! ## Feed generator
Embedding of `WalletManager._generate_and_broadcast_mock_transaction` and the
`PROTOCOL_PROGRAM_IDS` table from `backend/api/websocket_manager.py`. -/

/-- The fixed table of known on-chain program ids mapped to protocol names,
in source order. -/
def PROTOCOL_PROGRAM_IDS : List (String × String) :=
  [("JUP4Fb2cqiRUcaTHdrPC8h2gNsA2ETXiPDD33WcGuJB", "Jupiter"),
   ("JUP6LkbZbjS1jKKwapdHNy74zcZ3tLUZoi5QNyVTaV4", "Jupiter"),
   ("675kPX9MHTjS2zt1qfr1NYHuzeLXfQM9H24wFSUt1Mp8", "Raydium"),
   ("5quBtoiQqxF9Jv6KYKctB59NT3gtJD2Y65kdnB1Uev3h", "Raydium"),
   ("27haf8L6oxUeXrHrgEgsexjSY5hbVUWEmvv9Nyxg8vQv", "Raydium"),
   ("9W959DqEETiGZocYWCQPaJ6sBmUzgfxXfqGeTEdp3aQP", "Orca"),
   ("whirLbMiicVdio4qvUfM5KAg6Ct8VwpYzGff3uctyCc", "Orca"),
   ("DjVE6JNiYqPL2QXyCUUh8rNjHrbz9hXHNYt99MQ59qw1", "Orca"),
   ("SwaPpA9LAaLfeLi3a68M4DjnLqgtticKg6CnyNwgAC8", "Saber"),
   ("22Y43yTVxuUkoRKdm9thyRhQ3SdgQS7c7kB6UNCiaczD", "Serum"),
   ("9xQeWvG816bUx9EPjHmaT23yvVM2ZWbrrpZb9PusVFin", "Serum")]

/-- `list(PROTOCOL_PROGRAM_IDS.values())`, the population of
`random.choice` for the protocol label. -/
def protocolValues : List String := PROTOCOL_PROGRAM_IDS.map Prod.snd

/-- Python `round(x, 4)` on an exact value: round `x * 10 ** 4` to the
nearest integer and divide back. (Mathlib's `round` rounds half away from
zero where Python rounds half to even; the halves differ only at exact
5-in-the-last-place ties, immaterial to the range facts proved here.) -/
def pyRound4 (x : ℚ) : ℚ := ((round (x * 10000) : ℤ) : ℚ) / 10000

/-- `RealtimeTransaction` Pydantic model (fields produced by the feed
generator; `signature`, `timestamp`, `block_time` and `slot` are opaque
oracle inputs here). -/
structure RealtimeTransaction where
  signature : String
  wallet : String
  token_address : String
  amount : ℚ
  action_type : String
  protocol : String
  slot : Nat
deriving DecidableEq, Repr

/-- `_generate_and_broadcast_mock_transaction`: with no tracked wallets, log
and return; otherwise build exactly one transaction from a uniformly chosen
tracked wallet (`walletIdx` indexes `list(tracked_wallets.keys())`), a random
action (`actionIdx` indexes `["buy", "sell"]`), `round(uniform(10, 1000), 4)`
as the amount (`u` is the `random.uniform(10, 1000)` draw), and a random
protocol label (`protoIdx` indexes `list(PROTOCOL_PROGRAM_IDS.values())`). -/
def generateMockTransaction (tracked : List String) (tokenContract : String)
    (walletIdx actionIdx protoIdx slotVal : Nat) (sig : String) (u : ℚ) :
    Option RealtimeTransaction :=
  if tracked.isEmpty then none
  else some
    { signature := sig
      wallet := tracked.getD walletIdx ""
      token_address := tokenContract
      amount := pyRound4 u
      action_type := (["buy", "sell"]).getD actionIdx ""
      protocol := protocolValues.getD protoIdx ""
      slot := slotVal }

/-! ## Lemmas about the connection registry -/

theorem mStop_conns (s : MState) : (mStop s).conns = s.conns := by
  unfold mStop; split <;> rfl

theorem length_filter_sendOk_add (l : List Conn) :
    l.length = (l.filter (fun c => c.sendOk)).length + (l.filter sendFails).length := by
  induction l with
  | nil => rfl
  | cons c t ih =>
    by_cases h : c.sendOk <;> simp [sendFails, h, ih] <;> omega

theorem mDisconnect_conns (w : Nat) (s : MState) :
    (mDisconnect w s).conns = s.conns.eraseP (fun c => c.ws == w) := by
  simp only [mDisconnect]
  split
  · exact mStop_conns _
  · rfl

theorem foldl_mDisconnect_conns (bs : List Conn) (s : MState) :
    (bs.foldl (fun t c => mDisconnect c.ws t) s).conns =
      bs.foldl (fun l c => l.eraseP (fun x => x.ws == c.ws)) s.conns := by
  induction bs generalizing s with
  | nil => rfl
  | cons b bs ih => simpa [mDisconnect_conns] using ih (mDisconnect b.ws s)

theorem foldl_eraseP_cons (c : Conn) :
    ∀ (bs t : List Conn), (∀ b ∈ bs, b.ws ≠ c.ws) →
      bs.foldl (fun l x => l.eraseP (fun y => y.ws == x.ws)) (c :: t) =
        c :: bs.foldl (fun l x => l.eraseP (fun y => y.ws == x.ws)) t := by
  intro bs
  induction bs with
  | nil => intro t _; rfl
  | cons b bs ih =>
    intro t h
    have hb : c.ws ≠ b.ws := fun hc => h b (by simp) hc.symm
    have step : (c :: t).eraseP (fun y => y.ws == b.ws) =
        c :: t.eraseP (fun y => y.ws == b.ws) := by
      apply List.eraseP_cons_of_neg
      simp [hb]
    simp only [List.foldl_cons, step]
    exact ih (t.eraseP (fun y => y.ws == b.ws)) (fun x hx => h x (by simp [hx]))

theorem foldl_eraseP_filter :
    ∀ l : List Conn, (l.map Conn.ws).Nodup →
      (l.filter sendFails).foldl (fun acc c => acc.eraseP (fun x => x.ws == c.ws)) l =
        l.filter (fun c => c.sendOk) := by
  intro l
  induction l with
  | nil => intro _; rfl
  | cons c t ih =>
    intro hnd
    rw [List.map_cons, List.nodup_cons] at hnd
    obtain ⟨hc, hnd⟩ := hnd
    by_cases hf : sendFails c
    · have hok : c.sendOk = false := by
        simpa [sendFails] using hf
      have h1 : (c :: t).filter sendFails = c :: t.filter sendFails := by
        simp [hf]
      have h2 : (c :: t).eraseP (fun x => x.ws == c.ws) = t :=
        List.eraseP_cons_of_pos (by simp)
      rw [h1, List.foldl_cons, h2, ih hnd]
      simp [hok]
    · have hok : c.sendOk = true := by
        simpa [sendFails] using hf
      have h1 : (c :: t).filter sendFails = t.filter sendFails := by
        simp [hf]
      have hne : ∀ b ∈ t.filter sendFails, b.ws ≠ c.ws := by
        intro b hb hbe
        exact hc (hbe ▸ List.mem_map_of_mem Conn.ws (List.mem_of_mem_filter hb))
      rw [h1, foldl_eraseP_cons c (t.filter sendFails) t hne, ih hnd]
      simp [hok]

theorem mBroadcast_conns (s : MState) (h : (s.conns.map Conn.ws).Nodup) :
    (mBroadcast s).conns = s.conns.filter (fun c => c.sendOk) := by
  unfold mBroadcast
  rw [foldl_mDisconnect_conns]
  exact foldl_eraseP_filter s.conns h

/-- C1: broadcasting to a registry of `N` connections of which `M < N` fail
iterates over a snapshot copy of the connection set: afterwards exactly the
`M` failing connections are removed (the registry is exactly the `N − M`
surviving connections, in order), each surviving connection receives the
message (`broadcastDelivered = N − M`), and a subsequent broadcast targets
only those `N − M` connections (it removes nothing further). No error is
propagated to the caller: `mBroadcast` is total by construction, mirroring
the `except RuntimeError` handler around each send. The transport handles
are pairwise distinct, as produced by one accept per connection. -/
theorem c1_broadcast_prunes_failures (s : MState)
    (hnd : (s.conns.map Conn.ws).Nodup)
    (hlt : (s.conns.filter sendFails).length < s.conns.length) :
    (mBroadcast s).conns = s.conns.filter (fun c => c.sendOk) ∧
    (mBroadcast s).conns.length =
      s.conns.length - (s.conns.filter sendFails).length ∧
    broadcastDelivered s =
      s.conns.length - (s.conns.filter sendFails).length ∧
    (mBroadcast (mBroadcast s)).conns = s.conns.filter (fun c => c.sendOk) := by
  have hb := mBroadcast_conns s hnd
  have hlen := length_filter_sendOk_add s.conns
  refine ⟨hb, ?_, ?_, ?_⟩
  · rw [hb]; omega
  · unfold broadcastDelivered; omega
  · have hnd2 : ((mBroadcast s).conns.map Conn.ws).Nodup := by
      rw [hb]
      exact (List.Sublist.map Conn.ws (List.filter_sublist _)).nodup hnd
    rw [mBroadcast_conns (mBroadcast s) hnd2, hb]
    have : ((s.conns.filter (fun c => c.sendOk)).filter (fun c => c.sendOk)) =
        s.conns.filter (fun c => c.sendOk) := by
      rw [List.filter_filter]
      apply List.filter_congr
      intro a _
      simp
    exact this

/-- C1 witness: a registry of three connections in which the middle one's
transport is closed. -/
theorem c1_broadcast_prunes_failures_witness :
    ((([⟨0, 10, true⟩, ⟨1, 11, false⟩, ⟨2, 12, true⟩] : List Conn).map Conn.ws).Nodup ∧
      (([⟨0, 10, true⟩, ⟨1, 11, false⟩, ⟨2, 12, true⟩] : List Conn).filter sendFails).length <
        ([⟨0, 10, true⟩, ⟨1, 11, false⟩, ⟨2, 12, true⟩] : List Conn).length) ∧
    (mBroadcast { initState with
        conns := [⟨0, 10, true⟩, ⟨1, 11, false⟩, ⟨2, 12, true⟩] }).conns =
      ([⟨0, 10, true⟩, ⟨1, 11, false⟩, ⟨2, 12, true⟩] : List Conn).filter
        (fun c => c.sendOk) := by
  refine ⟨⟨by decide, by decide⟩, ?_⟩
  exact (c1_broadcast_prunes_failures
    { initState with conns := [⟨0, 10, true⟩, ⟨1, 11, false⟩, ⟨2, 12, true⟩] }
    (by decide) (by decide)).1

/-! ## Lemmas about the monitoring lifecycle -/

theorem mStop_not_monitoring (s : MState) : (mStop s).is_monitoring = false := by
  unfold mStop
  split
  · rfl
  · rename_i h
    simpa using h

theorem mConnect_monitoring (w : Nat) (ok : Bool) (s : MState) :
    (mConnect w ok s).is_monitoring = s.is_monitoring := rfl

theorem mDisconnect_monitoring_mono (w : Nat) (s : MState)
    (h : (mDisconnect w s).is_monitoring = true) : s.is_monitoring = true := by
  revert h
  simp only [mDisconnect]
  split
  · intro h
    rw [mStop_not_monitoring] at h
    exact absurd h (by simp)
  · exact fun h => h

theorem foldl_mDisconnect_monitoring_mono :
    ∀ (bs : List Conn) (s : MState),
      ((bs.foldl (fun t c => mDisconnect c.ws t) s).is_monitoring = true) →
        s.is_monitoring = true := by
  intro bs
  induction bs with
  | nil => exact fun s h => h
  | cons b bs ih =>
    intro s h
    exact mDisconnect_monitoring_mono b.ws s (ih (mDisconnect b.ws s) h)

theorem mBroadcast_monitoring_mono (s : MState)
    (h : (mBroadcast s).is_monitoring = true) : s.is_monitoring = true :=
  foldl_mDisconnect_monitoring_mono _ s h

theorem monitoring_requires_start :
    ∀ (evs : List Ev) (s : MState),
      (evs.foldl mStep s).is_monitoring = true → Ev.start ∈ evs ∨ s.is_monitoring = true := by
  intro evs
  induction evs with
  | nil => exact fun s h => Or.inr h
  | cons e evs ih =>
    intro s h
    rcases ih (mStep s e) h with hstart | hmon
    · exact Or.inl (List.mem_cons_of_mem _ hstart)
    · cases e with
      | connect w ok => exact Or.inr ((mConnect_monitoring w ok s) ▸ hmon)
      | disconnect w => exact Or.inr (mDisconnect_monitoring_mono w s hmon)
      | start => exact Or.inl (List.mem_cons_self _ _)
      | stop => exact absurd hmon (by simp [mStep, mStop_not_monitoring])
      | broadcastEv => exact Or.inr (mBroadcast_monitoring_mono s hmon)

/-- C2 counterexample: after the single reachable-trace event of one client
connecting (registry transitions 0 → 1, no explicit start), a connection is
registered but monitoring is inactive, so "monitoring is active if and only
if it was explicitly started or at least one connection is registered" is
false in this reachable state. -/
theorem c2_counterexample :
    ¬ ((mRun [Ev.connect 0 true]).is_monitoring = true ↔
        (Ev.start ∈ [Ev.connect 0 true] ∨ (mRun [Ev.connect 0 true]).conns ≠ [])) := by
  decide

/-- C2 (amended): monitoring is active only if an explicit start occurred in
the trace — connecting never activates it; a disconnect that leaves the
registry empty (in particular the 1 → 0 transition) turns monitoring off
whenever it was active; and a connect (in particular the 0 → 1 transition)
never changes the monitoring flag, so monitoring does not auto-start. -/
theorem c2_monitoring_lifecycle :
    (∀ evs : List Ev, (mRun evs).is_monitoring = true → Ev.start ∈ evs) ∧
    (∀ (s : MState) (w : Nat), (mDisconnect w s).conns = [] →
        (mDisconnect w s).is_monitoring = false) ∧
    (∀ (s : MState) (w : Nat) (ok : Bool),
        (mConnect w ok s).is_monitoring = s.is_monitoring) := by
  refine ⟨?_, ?_, fun s w ok => rfl⟩
  · intro evs h
    rcases monitoring_requires_start evs initState h with h' | h'
    · exact h'
    · exact absurd h' (by simp [initState])
  · intro s w
    have hc := mDisconnect_conns w s
    revert hc
    simp only [mDisconnect]
    intro hc hemp
    split
    · exact mStop_not_monitoring _
    · rename_i hcond
      rw [hc] at hemp
      simp only [hemp, List.isEmpty_nil, Bool.true_and] at hcond
      simpa using hcond

/-- C2 amended-claim witness: a start-only trace activates monitoring and
indeed contains the start event; disconnecting the last client of a
monitoring manager stops monitoring; connecting preserves the flag. -/
theorem c2_monitoring_lifecycle_witness :
    Ev.start ∈ [Ev.start] ∧
    (mDisconnect 7 (mRun [Ev.connect 7 true, Ev.start])).is_monitoring = false ∧
    (mConnect 3 true initState).is_monitoring = initState.is_monitoring := by
  refine ⟨c2_monitoring_lifecycle.1 [Ev.start] (by decide),
    c2_monitoring_lifecycle.2.1 (mRun [Ev.connect 7 true, Ev.start]) 7 (by decide),
    c2_monitoring_lifecycle.2.2 initState 3 true⟩

theorem mInv_mStop (s : MState) (h : mInv s) : mInv (mStop s) := by
  obtain ⟨h1, h2⟩ := h
  unfold mInv mStop
  split <;> rename_i hm <;> simp [hm] at h1 h2 ⊢ <;> simp [h1, h2, hm]

theorem mInv_mDisconnect (w : Nat) (s : MState) (h : mInv s) : mInv (mDisconnect w s) := by
  simp only [mDisconnect]
  split
  · exact mInv_mStop _ h
  · exact h

theorem mInv_foldl_mDisconnect :
    ∀ (bs : List Conn) (s : MState), mInv s →
      mInv (bs.foldl (fun t c => mDisconnect c.ws t) s) := by
  intro bs
  induction bs with
  | nil => exact fun s h => h
  | cons b bs ih => exact fun s h => ih _ (mInv_mDisconnect b.ws s h)

theorem mInv_mStep (s : MState) (e : Ev) (h : mInv s) : mInv (mStep s e) := by
  obtain ⟨h1, h2⟩ := h
  cases e with
  | connect w ok => exact ⟨h1, h2⟩
  | disconnect w => exact mInv_mDisconnect w s ⟨h1, h2⟩
  | start =>
    show mInv (mStart s)
    unfold mStart
    split
    · exact ⟨h1, h2⟩
    · rename_i hm
      replace hm : s.is_monitoring = false := by simpa using hm
      rw [hm] at h2
      simp only [Bool.false_eq_true, if_false] at h2
      exact ⟨rfl, by simp [h2]⟩
  | stop => exact mInv_mStop s ⟨h1, h2⟩
  | broadcastEv => exact mInv_foldl_mDisconnect _ s ⟨h1, h2⟩

theorem mInv_run (evs : List Ev) : mInv (mRun evs) := by
  unfold mRun
  have : ∀ (l : List Ev) (s : MState), mInv s → mInv (l.foldl mStep s) := by
    intro l
    induction l with
    | nil => exact fun s h => h
    | cons e l ih => exact fun s h => ih _ (mInv_mStep s e h)
  exact this evs initState ⟨rfl, rfl⟩

/-- C9: `start_monitoring` and `stop_monitoring` are idempotent — starting
while monitoring leaves the entire state (flag, task and ghost task count)
unchanged and spawns no second loop, stopping while not monitoring leaves
the state unchanged — and in every reachable state at most one monitor task
is live. -/
theorem c9_idempotent_lifecycle :
    (∀ s : MState, s.is_monitoring = true → mStart s = s) ∧
    (∀ s : MState, s.is_monitoring = false → mStop s = s) ∧
    (∀ evs : List Ev, (mRun evs).tasks ≤ 1) := by
  refine ⟨?_, ?_, ?_⟩
  · intro s h
    unfold mStart
    simp [h]
  · intro s h
    unfold mStop
    simp [h]
  · intro evs
    have h := (mInv_run evs).2
    split at h <;> omega

/-- C9 witness: starting an already-monitoring manager and stopping a
non-monitoring manager are both no-ops, and the empty trace has at most one
task. -/
theorem c9_idempotent_lifecycle_witness :
    mStart (mRun [Ev.start]) = mRun [Ev.start] ∧
    mStop initState = initState ∧
    (mRun []).tasks ≤ 1 := by
  refine ⟨c9_idempotent_lifecycle.1 (mRun [Ev.start]) (by decide),
    c9_idempotent_lifecycle.2.1 initState (by decide),
    c9_idempotent_lifecycle.2.2 []⟩

/-! ## Lemmas about the chain query client -/

theorem rpcGo_ok {α : Type} (m : String) (script : Nat → RpcResp α)
    (retries : Nat) (d : ℚ) (attempt fuel : Nat) (delays : List ℚ) (v : α)
    (h : script attempt = .ok v) :
    rpcGo m script retries d attempt (fuel + 1) delays = (.ok v, delays) := by
  simp [rpcGo, h]

theorem rpcGo_429 {α : Type} (m : String) (script : Nat → RpcResp α)
    (retries : Nat) (d : ℚ) (attempt fuel : Nat) (delays : List ℚ)
    (h : script attempt = .status429) :
    rpcGo m script retries d attempt (fuel + 1) delays =
      rpcGo m script retries d (attempt + 1) fuel (delays ++ [d * 2 ^ attempt]) := by
  simp [rpcGo, h]

theorem rpcGo_clientErr {α : Type} (m : String) (script : Nat → RpcResp α)
    (retries : Nat) (d : ℚ) (attempt fuel : Nat) (delays : List ℚ) (e : String)
    (h : script attempt = .clientErr e) (hlt : attempt < retries - 1) :
    rpcGo m script retries d attempt (fuel + 1) delays =
      rpcGo m script retries d (attempt + 1) fuel (delays ++ [d * 2 ^ attempt]) := by
  simp [rpcGo, h, hlt]

theorem rpcGo_timeout {α : Type} (m : String) (script : Nat → RpcResp α)
    (retries : Nat) (d : ℚ) (attempt fuel : Nat) (delays : List ℚ)
    (h : script attempt = .timeoutErr) (hlt : attempt < retries - 1) :
    rpcGo m script retries d attempt (fuel + 1) delays =
      rpcGo m script retries d (attempt + 1) fuel (delays ++ [d * 2 ^ attempt]) := by
  simp [rpcGo, h, hlt]

/-- C6 counterexample: with the source's `retries = 3` and
`initial_delay = 5.0`, a call that receives three consecutive rate-limit
responses followed by a success does not return the success result: the
three 429s consume all three attempts (sleeping 5 s, 10 s, 20 s), the loop
exits and the terminal exhausted `HTTPException(500)` is raised — the
would-be successful fourth attempt is never made. -/
theorem c6_counterexample :
    (callSolanaRpc "getProgramAccounts"
        (fun n => if n < 3 then RpcResp.status429 else RpcResp.ok (42 : Nat)) 3 5).1 ≠
      Except.ok 42 ∧
    callSolanaRpc "getProgramAccounts"
        (fun n => if n < 3 then RpcResp.status429 else RpcResp.ok (42 : Nat)) 3 5 =
      (Except.error ⟨500, "RPC call getProgramAccounts failed after 3 attempts."⟩,
        [5, 10, 20]) := by
  have key : callSolanaRpc "getProgramAccounts"
      (fun n => if n < 3 then RpcResp.status429 else RpcResp.ok (42 : Nat)) 3 5 =
      (Except.error ⟨500, "RPC call getProgramAccounts failed after 3 attempts."⟩,
        [5, 10, 20]) := by
    simp only [callSolanaRpc, rpcGo, Prod.mk.injEq]
    norm_num
    rfl
  refine ⟨?_, key⟩
  rw [key]
  simp

/-- C6 (amended): with the source's 3 attempts and 5-second initial delay,
rate-limit (429), transport-error and timeout responses are retried with
exponential backoff 5 s, 10 s, 20 s; two consecutive rate-limits followed by
a success return the success after exactly the delays 5 s and 10 s (likewise
for transport-error/timeout mixes); and three consecutive rate-limits
exhaust all three attempts, performing delays 5 s, 10 s, 20 s, and surface
the terminal exhausted failure (HTTP 500, "failed after 3 attempts"). -/
theorem c6_retry_backoff_schedule :
    (∀ (script : Nat → RpcResp Nat) (v : Nat),
        script 0 = .status429 → script 1 = .status429 → script 2 = .ok v →
        callSolanaRpc "getProgramAccounts" script 3 5 = (.ok v, [5, 10])) ∧
    (∀ script : Nat → RpcResp Nat, (∀ n, n < 3 → script n = .status429) →
        callSolanaRpc "getProgramAccounts" script 3 5 =
          (.error ⟨500, "RPC call getProgramAccounts failed after 3 attempts."⟩,
            [5, 10, 20])) ∧
    (∀ (script : Nat → RpcResp Nat) (e : String) (v : Nat),
        script 0 = .clientErr e → script 1 = .timeoutErr → script 2 = .ok v →
        callSolanaRpc "getProgramAccounts" script 3 5 = (.ok v, [5, 10])) := by
  refine ⟨?_, ?_, ?_⟩
  · intro script v h0 h1 h2
    unfold callSolanaRpc
    rw [show (3 : Nat) = 2 + 1 from rfl, rpcGo_429 _ _ _ _ _ _ _ h0,
      rpcGo_429 _ _ _ _ _ _ _ h1, rpcGo_ok _ _ _ _ _ _ _ _ h2]
    norm_num
  · intro script h
    unfold callSolanaRpc
    rw [show (3 : Nat) = 2 + 1 from rfl, rpcGo_429 _ _ _ _ _ _ _ (h 0 (by norm_num)),
      rpcGo_429 _ _ _ _ _ _ _ (h 1 (by norm_num)),
      rpcGo_429 _ _ _ _ _ _ _ (h 2 (by norm_num))]
    simp only [rpcGo, Prod.mk.injEq]
    refine ⟨by rfl, by norm_num⟩
  · intro script e v h0 h1 h2
    unfold callSolanaRpc
    rw [show (3 : Nat) = 2 + 1 from rfl,
      rpcGo_clientErr _ _ _ _ _ _ _ _ h0 (by norm_num),
      rpcGo_timeout _ _ _ _ _ _ _ h1 (by norm_num),
      rpcGo_ok _ _ _ _ _ _ _ _ h2]
    norm_num

/-- C6 amended-claim witness: a concrete script with two 429s then success
returns the success after delays 5 s and 10 s. -/
theorem c6_retry_backoff_schedule_witness :
    ((fun n => if n = 0 then RpcResp.status429
        else if n = 1 then RpcResp.status429 else RpcResp.ok (7 : Nat)) 0 =
        RpcResp.status429) ∧
    callSolanaRpc "getTokenSupply"
        (fun n => if n = 0 then RpcResp.status429
          else if n = 1 then RpcResp.status429 else RpcResp.ok (7 : Nat)) 3 5 =
      (.ok 7, [5, 10]) := by
  refine ⟨rfl, ?_⟩
  exact c6_retry_backoff_schedule.1
    (fun n => if n = 0 then RpcResp.status429
      else if n = 1 then RpcResp.status429 else RpcResp.ok (7 : Nat)) 7
    (by decide) (by decide) (by decide)

/-- C7: evaluating the chain query client at the failing input — a remote
response carrying an RPC-level error object on every attempt — shows the
code retries it: the `raise HTTPException(500, "RPC Error (...)")` inside
the `try` block is caught by the function's own generic `except Exception`
clause, so the call sleeps 5 s and 10 s, re-issues the request twice, and
after the last attempt surfaces the generic "unexpected error after multiple
retries" failure instead of surfacing the typed failure immediately with no
delay, as the claim (and the code's own intent in raising a typed
`HTTPException` carrying the remote code and message) requires. -/
theorem c7_rpc_error_is_retried :
    callSolanaRpc "getProgramAccounts"
        ((fun _ => RpcResp.rpcError 666 "boom") : Nat → RpcResp Nat) 3 5 =
      (Except.error ⟨500,
        "An unexpected error occurred after multiple retries: 500: RPC Error (666): boom"⟩,
        ([5, 10] : List ℚ)) ∧
    (callSolanaRpc "getProgramAccounts"
        ((fun _ => RpcResp.rpcError 666 "boom") : Nat → RpcResp Nat) 3 5).2 ≠
      ([] : List ℚ) := by
  have key : callSolanaRpc "getProgramAccounts"
      ((fun _ => RpcResp.rpcError 666 "boom") : Nat → RpcResp Nat) 3 5 =
      (Except.error ⟨500,
        "An unexpected error occurred after multiple retries: 500: RPC Error (666): boom"⟩,
        ([5, 10] : List ℚ)) := by
    simp only [callSolanaRpc, rpcGo, Prod.mk.injEq]
    norm_num
    rfl
  refine ⟨key, ?_⟩
  rw [key]
  simp

/-! ## Lemmas about the feed generator -/

theorem pyRound4_bounds (u : ℚ) (h1 : 10 ≤ u) (h2 : u < 1000) :
    10 ≤ pyRound4 u ∧ pyRound4 u ≤ 1000 := by
  have hlo : (100000 : ℤ) ≤ round (u * 10000) := by
    rw [round_eq]
    have hle : (100000 : ℚ) + 1 / 2 ≤ u * 10000 + 1 / 2 := by nlinarith
    calc (100000 : ℤ) = ⌊(100000 : ℚ) + 1 / 2⌋ := by norm_num
      _ ≤ ⌊u * 10000 + 1 / 2⌋ := Int.floor_mono hle
  have hhi : round (u * 10000) ≤ (10000000 : ℤ) := by
    rw [round_eq]
    have hle : u * 10000 + 1 / 2 ≤ (10000000 : ℚ) + 1 / 2 := by nlinarith
    calc ⌊u * 10000 + 1 / 2⌋ ≤ ⌊(10000000 : ℚ) + 1 / 2⌋ := Int.floor_mono hle
      _ = 10000000 := by norm_num
  constructor
  · unfold pyRound4
    rw [le_div_iff₀ (by norm_num : (0 : ℚ) < 10000)]
    calc (10 : ℚ) * 10000 = ((100000 : ℤ) : ℚ) := by norm_num
      _ ≤ _ := by exact_mod_cast hlo
  · unfold pyRound4
    rw [div_le_iff₀ (by norm_num : (0 : ℚ) < 10000)]
    calc ((round (u * 10000) : ℤ) : ℚ) ≤ ((10000000 : ℤ) : ℚ) := by exact_mod_cast hhi
      _ = 1000 * 10000 := by norm_num

theorem getD_mem_of_lt {l : List String} {n : Nat} (h : n < l.length) :
    l.getD n "" ∈ l := by
  rw [List.getD_eq_getElem?_getD, List.getElem?_eq_getElem h]
  exact List.getElem_mem h

/-- C8 counterexample: with one tracked wallet and a `random.uniform(10, 1000)`
draw of `999.99996` (inside the claimed half-open range `[10, 1000)`), the
produced transaction's amount `round(999.99996, 4) = 1000.0` lies outside
`[10, 1000)`, so "amount lies in the half-open interval [10, 1000)" is false. -/
theorem c8_counterexample :
    ((10 : ℚ) ≤ 99999996 / 100000 ∧ (99999996 / 100000 : ℚ) < 1000) ∧
    (generateMockTransaction ["W1"] "tok" 0 0 0 0 "sig" (99999996 / 100000)).map
        (fun tx => tx.amount) = some 1000 ∧
    ¬ ((1000 : ℚ) < 1000) := by
  refine ⟨⟨by norm_num, by norm_num⟩, ?_, by norm_num⟩
  have hamt : pyRound4 (99999996 / 100000) = 1000 := by
    unfold pyRound4
    rw [show (99999996 / 100000 : ℚ) * 10000 = 99999996 / 10 by norm_num, round_eq]
    norm_num
  simp [generateMockTransaction, hamt]

/-- C8 (amended): for every invocation of the feed generator with a non-empty
tracked-wallet set, exactly one transaction record is produced; its wallet is
a member of the tracked set, its action kind is in `{buy, sell}`, its amount
is `round(u, 4)` for a uniform draw `u ∈ [10, 1000)` and hence lies in the
closed interval `[10, 1000]` (rounding to 4 decimal places can attain 1000),
and its protocol label is drawn from the fixed known-program-id table, whose
values are exactly `{Jupiter, Raydium, Orca, Saber, Serum}`; with tracked
wallets `{W1}` the wallet equals `W1`. -/
theorem c8_feed_generator (tracked : List String) (tokenContract sig : String)
    (walletIdx actionIdx protoIdx slotVal : Nat) (u : ℚ)
    (hne : tracked ≠ []) (hw : walletIdx < tracked.length) (ha : actionIdx < 2)
    (hp : protoIdx < protocolValues.length) (hu1 : 10 ≤ u) (hu2 : u < 1000) :
    ∃ tx : RealtimeTransaction,
      generateMockTransaction tracked tokenContract walletIdx actionIdx protoIdx
          slotVal sig u = some tx ∧
      tx.wallet ∈ tracked ∧
      (tx.action_type = "buy" ∨ tx.action_type = "sell") ∧
      10 ≤ tx.amount ∧ tx.amount ≤ 1000 ∧
      tx.protocol ∈ protocolValues ∧
      tx.protocol ∈ ["Jupiter", "Raydium", "Orca", "Saber", "Serum"] ∧
      (tracked = ["W1"] → tx.wallet = "W1") := by
  have hie : tracked.isEmpty = false := by
    cases tracked with
    | nil => exact absurd rfl hne
    | cons a l => rfl
  refine ⟨⟨sig, tracked.getD walletIdx "", tokenContract, pyRound4 u,
    (["buy", "sell"]).getD actionIdx "", protocolValues.getD protoIdx "", slotVal⟩,
    ?_, ?_, ?_, ?_, ?_, ?_, ?_, ?_⟩
  · simp [generateMockTransaction, hie]
  · exact getD_mem_of_lt hw
  · interval_cases actionIdx
    · exact Or.inl rfl
    · exact Or.inr rfl
  · exact (pyRound4_bounds u hu1 hu2).1
  · exact (pyRound4_bounds u hu1 hu2).2
  · exact getD_mem_of_lt hp
  · have hall : ∀ p ∈ protocolValues,
        p ∈ (["Jupiter", "Raydium", "Orca", "Saber", "Serum"] : List String) := by
      decide
    exact hall _ (getD_mem_of_lt hp)
  · intro h
    subst h
    have hz : walletIdx = 0 := by
      simpa using hw
    subst hz
    rfl

/-- C8 amended-claim witness: one tracked wallet `W1`, a draw of `500`. -/
theorem c8_feed_generator_witness :
    ((["W1"] : List String) ≠ [] ∧ 0 < (["W1"] : List String).length ∧
      0 < 2 ∧ 0 < protocolValues.length ∧ (10 : ℚ) ≤ 500 ∧ (500 : ℚ) < 1000) ∧
    ∃ tx : RealtimeTransaction,
      generateMockTransaction ["W1"] "tok" 0 0 0 123 "sig" 500 = some tx ∧
      tx.wallet ∈ (["W1"] : List String) ∧
      (tx.action_type = "buy" ∨ tx.action_type = "sell") ∧
      10 ≤ tx.amount ∧ tx.amount ≤ 1000 ∧
      tx.protocol ∈ protocolValues ∧
      tx.protocol ∈ ["Jupiter", "Raydium", "Orca", "Saber", "Serum"] ∧
      ((["W1"] : List String) = ["W1"] → tx.wallet = "W1") := by
  refine ⟨⟨by decide, by decide, by decide, by decide, by norm_num, by norm_num⟩, ?_⟩
  exact c8_feed_generator ["W1"] "tok" "sig" 0 0 0 123 500
    (by decide) (by decide) (by decide) (by decide) (by norm_num) (by norm_num)

/-! ## Lemmas about the stable descending sort -/

theorem mem_insertDesc {x b : TokenHolder} :
    ∀ {l : List TokenHolder}, b ∈ insertDesc x l ↔ b = x ∨ b ∈ l := by
  intro l
  induction l with
  | nil => simp [insertDesc]
  | cons y ys ih =>
    unfold insertDesc
    split
    · simp only [List.mem_cons, ih]
      tauto
    · simp [List.mem_cons]

theorem insertDesc_sorted (x : TokenHolder) :
    ∀ l : List TokenHolder, l.Sorted (fun a b => b.balance ≤ a.balance) →
      (insertDesc x l).Sorted (fun a b => b.balance ≤ a.balance) := by
  intro l
  induction l with
  | nil => intro _; simp [insertDesc]
  | cons y ys ih =>
    intro h
    rw [List.sorted_cons] at h
    obtain ⟨hy, hys⟩ := h
    unfold insertDesc
    split
    · rename_i hlt
      rw [List.sorted_cons]
      refine ⟨?_, ih hys⟩
      intro b hb
      rcases mem_insertDesc.mp hb with rfl | hb
      · exact le_of_lt hlt
      · exact hy b hb
    · rename_i hge
      push_neg at hge
      rw [List.sorted_cons]
      refine ⟨?_, ?_⟩
      · intro b hb
        rcases List.mem_cons.mp hb with rfl | hb
        · exact hge
        · exact le_trans (hy b hb) hge
      · rw [List.sorted_cons]
        exact ⟨hy, hys⟩

theorem pySortedDesc_sorted (l : List TokenHolder) :
    (pySortedDesc l).Sorted (fun a b => b.balance ≤ a.balance) := by
  induction l with
  | nil => simp [pySortedDesc]
  | cons x xs ih => exact insertDesc_sorted x (pySortedDesc xs) ih

theorem filter_insertDesc_eq (x : TokenHolder) (b : ℚ) (hx : x.balance = b) :
    ∀ l : List TokenHolder,
      (insertDesc x l).filter (fun h => h.balance == b) =
        x :: l.filter (fun h => h.balance == b) := by
  intro l
  induction l with
  | nil => simp [insertDesc, hx]
  | cons y ys ih =>
    unfold insertDesc
    split
    · rename_i hlt
      have hyb : (y.balance == b) = false := by
        rw [beq_eq_false_iff_ne]
        intro hyb
        rw [hx] at hlt
        rw [hyb] at hlt
        exact lt_irrefl b hlt
      simp only [List.filter_cons, hyb, Bool.false_eq_true, if_false, ih]
    · simp [List.filter_cons, hx]

theorem filter_insertDesc_ne (x : TokenHolder) (b : ℚ) (hx : x.balance ≠ b) :
    ∀ l : List TokenHolder,
      (insertDesc x l).filter (fun h => h.balance == b) =
        l.filter (fun h => h.balance == b) := by
  intro l
  have hxb : (x.balance == b) = false := by
    rw [beq_eq_false_iff_ne]
    exact hx
  induction l with
  | nil => simp [insertDesc, hxb]
  | cons y ys ih =>
    unfold insertDesc
    split
    · simp only [List.filter_cons, ih]
    · simp only [List.filter_cons, hxb, Bool.false_eq_true, if_false]

theorem pySortedDesc_filter (l : List TokenHolder) (b : ℚ) :
    (pySortedDesc l).filter (fun h => h.balance == b) =
      l.filter (fun h => h.balance == b) := by
  induction l with
  | nil => rfl
  | cons x xs ih =>
    show (insertDesc x (pySortedDesc xs)).filter (fun h => h.balance == b) = _
    by_cases hx : x.balance = b
    · rw [filter_insertDesc_eq x b hx, ih, List.filter_cons]
      simp [hx]
    · rw [filter_insertDesc_ne x b hx, ih, List.filter_cons]
      have : (x.balance == b) = false := by
        rw [beq_eq_false_iff_ne]
        exact hx
      simp [this]

/-! ## Lemmas about owner aggregation -/

theorem find?_map_upd (owner : String) (a : ParsedAccount) (decimals : Nat)
    (acc : List Agg) :
    (acc.map (fun e => if e.owner == a.owner
        then { e with balance := e.balance + uiAmt decimals a.amount } else e)).find?
      (fun e => e.owner == owner) =
    (acc.find? (fun e => e.owner == owner)).map (fun e => if e.owner == a.owner
        then { e with balance := e.balance + uiAmt decimals a.amount } else e) := by
  rw [List.find?_map]
  have hfun : ((fun e : Agg => e.owner == owner) ∘ (fun e : Agg =>
      if e.owner == a.owner
        then { e with balance := e.balance + uiAmt decimals a.amount } else e)) =
      (fun e : Agg => e.owner == owner) := by
    funext e
    by_cases h : e.owner == a.owner <;> simp [Function.comp, h]
  rw [hfun]

theorem contribCond_true (decimals : Nat) (owner : String) (a : ParsedAccount)
    (ho : a.owner = owner) (hpos : 0 < uiAmt decimals a.amount) :
    contribCond decimals owner a = true := by
  simp [contribCond, ho, hpos]

theorem contribCond_false_of_ne (decimals : Nat) (owner : String) (a : ParsedAccount)
    (ho : a.owner ≠ owner) : contribCond decimals owner a = false := by
  have hb : (a.owner == owner) = false := beq_eq_false_iff_ne.mpr ho
  simp [contribCond, hb]

theorem contribCond_false_of_nonpos (decimals : Nat) (owner : String) (a : ParsedAccount)
    (hp : ¬ 0 < uiAmt decimals a.amount) : contribCond decimals owner a = false := by
  simp [contribCond, hp]

theorem balOf_addAcct (decimals : Nat) (owner : String) (how : owner ≠ "")
    (acc : List Agg) (a : ParsedAccount) :
    balOf owner (addAcct decimals acc a) =
      balOf owner acc +
        (if contribCond decimals owner a then uiAmt decimals a.amount else 0) := by
  unfold addAcct
  by_cases hguard : a.owner ≠ "" ∧ 0 < uiAmt decimals a.amount
  · rw [if_pos hguard]
    obtain ⟨hown, hpos⟩ := hguard
    by_cases hmem : acc.any (fun e => e.owner == a.owner)
    · rw [if_pos hmem]
      unfold balOf findAgg
      rw [find?_map_upd]
      cases hfind : acc.find? (fun e => e.owner == owner) with
      | none =>
        by_cases ho : a.owner = owner
        · exfalso
          obtain ⟨x, hx, hpx⟩ := List.any_eq_true.mp hmem
          have : ∀ y ∈ acc, ¬ ((fun e : Agg => e.owner == owner) y = true) :=
            List.find?_eq_none.mp hfind
          exact this x hx (by rw [ho] at hpx; exact hpx)
        · rw [contribCond_false_of_ne decimals owner a ho]
          simp
      | some e =>
        have hqe : (e.owner == owner) = true := by
          have := List.find?_some hfind
          simpa using this
        by_cases hq : (e.owner == a.owner) = true
        · have ho : a.owner = owner := by
            rw [beq_iff_eq] at hq hqe
            rw [← hq, hqe]
          rw [contribCond_true decimals owner a ho hpos]
          simp [beq_iff_eq.mp hq]
        · have hq' : (e.owner == a.owner) = false := by simpa using hq
          have ho : a.owner ≠ owner := by
            have hne := beq_eq_false_iff_ne.mp hq'
            rw [beq_iff_eq] at hqe
            intro h
            exact hne (by rw [hqe, h])
          rw [contribCond_false_of_ne decimals owner a ho]
          simp [beq_eq_false_iff_ne.mp hq']
    · rw [if_neg hmem]
      have hnone : acc.find? (fun e => e.owner == a.owner) = none := by
        rw [List.find?_eq_none]
        intro x hx hpx
        exact (List.any_eq_true.not.mp hmem) ⟨x, hx, hpx⟩
      by_cases ho : a.owner = owner
      · rw [contribCond_true decimals owner a ho hpos]
        unfold balOf findAgg
        rw [List.find?_append]
        have hacc : acc.find? (fun e => e.owner == owner) = none := by
          rw [← ho]
          exact hnone
        rw [hacc]
        simp [List.find?_cons, ho]
      · rw [contribCond_false_of_ne decimals owner a ho]
        have hnew : ((⟨a.owner, uiAmt decimals a.amount, a.pubkey⟩ : Agg).owner == owner) =
            false := beq_eq_false_iff_ne.mpr ho
        unfold balOf findAgg
        rw [List.find?_append]
        simp only [List.find?_cons, hnew]
        simp [Option.or_none]
  · rw [if_neg hguard]
    have hcf : contribCond decimals owner a = false := by
      by_cases he : a.owner = owner
      · have h1 : a.owner ≠ "" := by rw [he]; exact how
        have h2 : ¬ 0 < uiAmt decimals a.amount := fun hp => hguard ⟨h1, hp⟩
        exact contribCond_false_of_nonpos decimals owner a h2
      · exact contribCond_false_of_ne decimals owner a he
    simp [hcf]

theorem tokOf_addAcct (decimals : Nat) (owner : String) (how : owner ≠ "")
    (acc : List Agg) (a : ParsedAccount) :
    tokOf owner (addAcct decimals acc a) =
      (tokOf owner acc).or
        (if contribCond decimals owner a then some a.pubkey else none) := by
  unfold addAcct
  by_cases hguard : a.owner ≠ "" ∧ 0 < uiAmt decimals a.amount
  · rw [if_pos hguard]
    obtain ⟨hown, hpos⟩ := hguard
    by_cases hmem : acc.any (fun e => e.owner == a.owner)
    · rw [if_pos hmem]
      unfold tokOf findAgg
      rw [find?_map_upd]
      cases hfind : acc.find? (fun e => e.owner == owner) with
      | none =>
        by_cases ho : a.owner = owner
        · exfalso
          obtain ⟨x, hx, hpx⟩ := List.any_eq_true.mp hmem
          have : ∀ y ∈ acc, ¬ ((fun e : Agg => e.owner == owner) y = true) :=
            List.find?_eq_none.mp hfind
          exact this x hx (by rw [ho] at hpx; exact hpx)
        · rw [contribCond_false_of_ne decimals owner a ho]
          simp
      | some e =>
        by_cases hq : (e.owner == a.owner) = true
        · simp [beq_iff_eq.mp hq, Option.or_some]
        · have hq' : (e.owner == a.owner) = false := by simpa using hq
          simp [beq_eq_false_iff_ne.mp hq', Option.or_some]
    · rw [if_neg hmem]
      have hnone : acc.find? (fun e => e.owner == a.owner) = none := by
        rw [List.find?_eq_none]
        intro x hx hpx
        exact (List.any_eq_true.not.mp hmem) ⟨x, hx, hpx⟩
      by_cases ho : a.owner = owner
      · rw [contribCond_true decimals owner a ho hpos]
        unfold tokOf findAgg
        rw [List.find?_append]
        have hacc : acc.find? (fun e => e.owner == owner) = none := by
          rw [← ho]
          exact hnone
        rw [hacc]
        simp [List.find?_cons, ho]
      · rw [contribCond_false_of_ne decimals owner a ho]
        have hnew : ((⟨a.owner, uiAmt decimals a.amount, a.pubkey⟩ : Agg).owner == owner) =
            false := beq_eq_false_iff_ne.mpr ho
        unfold tokOf findAgg
        rw [List.find?_append]
        simp only [List.find?_cons, hnew]
        simp [Option.or_none]
  · rw [if_neg hguard]
    have hcf : contribCond decimals owner a = false := by
      by_cases he : a.owner = owner
      · have h1 : a.owner ≠ "" := by rw [he]; exact how
        have h2 : ¬ 0 < uiAmt decimals a.amount := fun hp => hguard ⟨h1, hp⟩
        exact contribCond_false_of_nonpos decimals owner a h2
      · exact contribCond_false_of_ne decimals owner a he
    simp [hcf, Option.or_none]

theorem posSum_cons (decimals : Nat) (owner : String) (a : ParsedAccount)
    (l : List ParsedAccount) :
    posSum decimals owner (a :: l) =
      (if contribCond decimals owner a then uiAmt decimals a.amount else 0) +
        posSum decimals owner l := by
  unfold posSum posAccounts
  rw [List.filter_cons]
  by_cases hc : contribCond decimals owner a <;> simp [hc]

theorem balOf_foldl (decimals : Nat) (owner : String) (how : owner ≠ "") :
    ∀ (l : List ParsedAccount) (acc : List Agg),
      balOf owner (l.foldl (addAcct decimals) acc) =
        balOf owner acc + posSum decimals owner l := by
  intro l
  induction l with
  | nil =>
    intro acc
    simp [posSum, posAccounts]
  | cons a l ih =>
    intro acc
    rw [List.foldl_cons, ih, balOf_addAcct decimals owner how, posSum_cons]
    ring

theorem balOf_aggregate (decimals : Nat) (owner : String) (how : owner ≠ "")
    (l : List ParsedAccount) :
    balOf owner (aggregate decimals l) = posSum decimals owner l := by
  unfold aggregate
  rw [balOf_foldl decimals owner how]
  simp [balOf, findAgg]

theorem tokOf_foldl (decimals : Nat) (owner : String) (how : owner ≠ "") :
    ∀ (l : List ParsedAccount) (acc : List Agg),
      tokOf owner (l.foldl (addAcct decimals) acc) =
        (tokOf owner acc).or
          ((posAccounts decimals owner l).head?.map (fun a => a.pubkey)) := by
  intro l
  induction l with
  | nil =>
    intro acc
    simp [posAccounts, Option.or_none]
  | cons a l ih =>
    intro acc
    rw [List.foldl_cons, ih, tokOf_addAcct decimals owner how, Option.or_assoc]
    congr 1
    unfold posAccounts
    rw [List.filter_cons]
    by_cases hc : contribCond decimals owner a <;> simp [hc]

theorem tokOf_aggregate (decimals : Nat) (owner : String) (how : owner ≠ "")
    (l : List ParsedAccount) :
    tokOf owner (aggregate decimals l) =
      (posAccounts decimals owner l).head?.map (fun a => a.pubkey) := by
  unfold aggregate
  rw [tokOf_foldl decimals owner how]
  simp [tokOf, findAgg]

theorem posSum_eq_total (decimals : Nat) (owner : String) :
    ∀ l : List ParsedAccount, (∀ a ∈ l, a.owner = owner → 0 ≤ a.amount) →
      posSum decimals owner l =
        ((l.filter (fun a => a.owner == owner)).map
          (fun a => uiAmt decimals a.amount)).sum := by
  intro l
  induction l with
  | nil => intro _; rfl
  | cons a l ih =>
    intro hnn
    have hnn' : ∀ x ∈ l, x.owner = owner → 0 ≤ x.amount :=
      fun x hx => hnn x (List.mem_cons_of_mem a hx)
    rw [posSum_cons, List.filter_cons]
    by_cases ho : (a.owner == owner) = true
    · by_cases hp : 0 < uiAmt decimals a.amount
      · have hc : contribCond decimals owner a = true := by
          simp [contribCond, ho, hp]
        simp only [hc, if_true, ho, List.map_cons, List.sum_cons]
        rw [ih hnn']
      · have hc : contribCond decimals owner a = false := by
          simp [contribCond, hp]
        have hnnz : 0 ≤ uiAmt decimals a.amount := by
          unfold uiAmt
          apply div_nonneg
          · exact_mod_cast hnn a (List.mem_cons_self a l) (beq_iff_eq.mp ho)
          · positivity
        have h0 : uiAmt decimals a.amount = 0 := le_antisymm (not_lt.mp hp) hnnz
        rw [ih hnn']
        simp [hc, ho, h0]
    · have hc : contribCond decimals owner a = false := by
        simp [contribCond, ho]
      simp only [hc, Bool.false_eq_true, if_false, ho, zero_add]
      exact ih hnn'

/-- C4: discovery aggregates balances by owner address, not by token account:
for every owner, the aggregated running balance equals the sum of the
UI-normalized amounts (`raw / 10 ** decimals`) of that owner's accounts —
accounts with zero-or-negative UI amount are skipped, and with non-negative
raw amounts the positive-account sum equals the sum over all of the owner's
accounts — and the representative token account retained for the owner is the
first of the owner's contributing accounts; on the example records
{owner A: 100, owner A: 50, owner B: 30} with decimals 0, exactly two holders
result, A = 150 ranked first and B = 30 ranked second. -/
theorem c4_aggregate_by_owner (decimals : Nat) (parsed : List ParsedAccount)
    (owner : String) (how : owner ≠ "")
    (hnn : ∀ a ∈ parsed, a.owner = owner → 0 ≤ a.amount) :
    balOf owner (aggregate decimals parsed) = posSum decimals owner parsed ∧
    balOf owner (aggregate decimals parsed) =
      ((parsed.filter (fun a => a.owner == owner)).map
        (fun a => uiAmt decimals a.amount)).sum ∧
    tokOf owner (aggregate decimals parsed) =
      (posAccounts decimals owner parsed).head?.map (fun a => a.pubkey) ∧
    discoverHolders 0 [⟨"pk1", "A", 100⟩, ⟨"pk2", "A", 50⟩, ⟨"pk3", "B", 30⟩] =
      [⟨"A", "pk1", 150, 150, 0⟩, ⟨"B", "pk3", 30, 30, 0⟩] ∧
    pySortedDesc (discoverHolders 0 [⟨"pk1", "A", 100⟩, ⟨"pk2", "A", 50⟩, ⟨"pk3", "B", 30⟩]) =
      [⟨"A", "pk1", 150, 150, 0⟩, ⟨"B", "pk3", 30, 30, 0⟩] := by
  have hex : discoverHolders 0 [⟨"pk1", "A", 100⟩, ⟨"pk2", "A", 50⟩, ⟨"pk3", "B", 30⟩] =
      [⟨"A", "pk1", 150, 150, 0⟩, ⟨"B", "pk3", 30, 30, 0⟩] := by
    simp [discoverHolders, aggregate, addAcct, uiAmt, toHolder]
    norm_num [toHolder]
  refine ⟨balOf_aggregate decimals owner how parsed, ?_, tokOf_aggregate decimals owner how parsed,
    hex, ?_⟩
  · rw [balOf_aggregate decimals owner how parsed]
    exact posSum_eq_total decimals owner parsed hnn
  · rw [hex]
    simp [pySortedDesc, insertDesc]
    norm_num

/-- C4 witness: owner `A` of the example account set has aggregated balance
`150` and representative token account `pk1`. -/
theorem c4_aggregate_by_owner_witness :
    (("A" : String) ≠ "" ∧
      (∀ a ∈ ([⟨"pk1", "A", 100⟩, ⟨"pk2", "A", 50⟩, ⟨"pk3", "B", 30⟩] : List ParsedAccount),
        a.owner = "A" → 0 ≤ a.amount)) ∧
    balOf "A" (aggregate 0 [⟨"pk1", "A", 100⟩, ⟨"pk2", "A", 50⟩, ⟨"pk3", "B", 30⟩]) =
      posSum 0 "A" [⟨"pk1", "A", 100⟩, ⟨"pk2", "A", 50⟩, ⟨"pk3", "B", 30⟩] := by
  refine ⟨⟨by decide, by decide⟩, ?_⟩
  exact (c4_aggregate_by_owner 0 [⟨"pk1", "A", 100⟩, ⟨"pk2", "A", 50⟩, ⟨"pk3", "B", 30⟩]
    "A" (by decide) (by decide)).1


/-! ## Lemmas about discovery persistence -/

theorem find?_replaceF_upsert {α : Type} (p : α → Bool) (x : α) (hx : p x = true) :
    ∀ l : List α, (l.replaceF (fun d => if p d then some x else none)).find? p =
      if l.any p then some x else l.find? p := by
  intro l
  induction l with
  | nil => simp [List.replaceF]
  | cons d l ih =>
    by_cases hd : p d = true
    · simp [List.replaceF, hd, List.find?_cons, hx]
    · have hd' : p d = false := by simpa using hd
      simp [List.replaceF, hd', List.find?_cons, ih]

theorem updateTokenHolderSnapshot_true_mem (snap : TokenHolderSnapshot) (db : DbState)
    (hmem : db.token_holders.any (fun d => d.token_address == snap.token_address) = true) :
    updateTokenHolderSnapshot true snap db =
      (DbState.mk
        (db.token_holders.replaceF
          (fun d => if d.token_address == snap.token_address then some snap else none))
        db.wallets, false) := by
  unfold updateTokenHolderSnapshot
  simp [hmem]

theorem updateTokenHolderSnapshot_true_notmem (snap : TokenHolderSnapshot) (db : DbState)
    (hmem : db.token_holders.any (fun d => d.token_address == snap.token_address) = false) :
    updateTokenHolderSnapshot true snap db =
      ({ db with token_holders := db.token_holders ++ [snap] }, false) := by
  unfold updateTokenHolderSnapshot
  simp [hmem]

theorem findSnapshot_update (mint : String) (snap : TokenHolderSnapshot) (db : DbState)
    (h : snap.token_address = mint) :
    findSnapshot mint (updateTokenHolderSnapshot true snap db).1 = some snap := by
  subst h
  have hx : ((fun d : TokenHolderSnapshot => d.token_address == snap.token_address) snap) =
      true := by simp
  by_cases hmem :
      db.token_holders.any (fun d => d.token_address == snap.token_address) = true
  · rw [updateTokenHolderSnapshot_true_mem snap db hmem]
    unfold findSnapshot
    rw [find?_replaceF_upsert _ snap hx, if_pos hmem]
  · have hmem' : db.token_holders.any (fun d => d.token_address == snap.token_address) =
        false := by simpa using hmem
    rw [updateTokenHolderSnapshot_true_notmem snap db hmem']
    unfold findSnapshot
    rw [List.find?_append]
    have hnone : db.token_holders.find?
        (fun d => d.token_address == snap.token_address) = none := by
      rw [List.find?_eq_none]
      intro y hy hpy
      have : db.token_holders.any (fun d => d.token_address == snap.token_address) = true :=
        List.any_eq_true.mpr ⟨y, hy, hpy⟩
      exact absurd this hmem
    rw [hnone]
    simp [List.find?_cons, hx]

theorem updateOrInsertWalletTracker_token_holders (ok : Bool) (w : WalletTracker)
    (db : DbState) :
    (updateOrInsertWalletTracker ok w db).1.token_holders = db.token_holders := by
  unfold updateOrInsertWalletTracker
  by_cases hok : ok = true
  · by_cases hmem : db.wallets.any (fun d => d.address == w.address) = true <;>
      simp [hok, hmem]
  · have : ok = false := by simpa using hok
    simp [this]

theorem writeTrackersGo_token_holders (oracle : DbOracle) :
    ∀ (hs : List TokenHolder) (i : Nat) (db : DbState) (err : Bool),
      ((writeTrackersGo oracle hs i db err).1).token_holders = db.token_holders := by
  intro hs
  induction hs with
  | nil => intro i db err; rfl
  | cons h hs ih =>
    intro i db err
    rw [writeTrackersGo]
    rw [ih]
    exact updateOrInsertWalletTracker_token_holders _ _ db

theorem isEmpty_false_of_ne_nil {α : Type} {l : List α} (h : l ≠ []) :
    l.isEmpty = false := by
  cases l with
  | nil => exact absurd rfl h
  | cons a l => rfl

theorem discover_success_db (mint : String) (top_n : Nat)
    (accts : List RawAccount) (parsed : List ParsedAccount)
    (supply : Option SupplyInfo) (now : Nat) (oracle : DbOracle) (db : DbState)
    (hne : accts ≠ []) (hp : parseAll accts = some parsed) :
    discover_top_wallets mint top_n (Except.ok (some accts)) supply now oracle db =
      let snap := discoverSnapshot mint top_n parsed supply now
      let r1 := updateTokenHolderSnapshot oracle.snapOk snap db
      let r2 := writeTrackers oracle snap.holders r1.1
      ⟨r2.1, r1.2 || r2.2, false⟩ := by
  unfold discover_top_wallets
  simp only [Option.getD_some, isEmpty_false_of_ne_nil hne, Bool.false_eq_true, if_false, hp]

/-- C3: for every successful discovery run (chain query returns a non-empty
account list, every account parses, and the snapshot write succeeds), the
persisted snapshot for the mint is exactly the computed snapshot; its holder
sequence is sorted descending by balance, is the `top_n`-truncation of the
stable descending sort of the aggregated holders (so ties keep their
first-seen aggregation order: filtering the sorted list at any fixed balance
returns the aggregation-ordered sublist), has length at most `top_n`, and
`holder_count` equals the length of the persisted holder sequence. -/
theorem c3_snapshot_sorted_truncated (mint : String) (top_n : Nat)
    (accts : List RawAccount) (parsed : List ParsedAccount)
    (supply : Option SupplyInfo) (now : Nat) (oracle : DbOracle) (db : DbState)
    (hne : accts ≠ []) (hp : parseAll accts = some parsed) (hok : oracle.snapOk = true) :
    findSnapshot mint (discover_top_wallets mint top_n (Except.ok (some accts)) supply now
        oracle db).db = some (discoverSnapshot mint top_n parsed supply now) ∧
    (discoverSnapshot mint top_n parsed supply now).holders.Sorted
      (fun a b => b.balance ≤ a.balance) ∧
    (discoverSnapshot mint top_n parsed supply now).holders.length ≤ top_n ∧
    (discoverSnapshot mint top_n parsed supply now).holder_count =
      (discoverSnapshot mint top_n parsed supply now).holders.length ∧
    (∀ b : ℚ, (pySortedDesc (discoverHolders (supplyDecimals supply) parsed)).filter
        (fun h => h.balance == b) =
      (discoverHolders (supplyDecimals supply) parsed).filter (fun h => h.balance == b)) ∧
    (discoverSnapshot mint top_n parsed supply now).holders =
      (pySortedDesc (discoverHolders (supplyDecimals supply) parsed)).take top_n := by
  refine ⟨?_, ?_, ?_, rfl, fun b => pySortedDesc_filter _ b, rfl⟩
  · rw [discover_success_db mint top_n accts parsed supply now oracle db hne hp]
    show findSnapshot mint (writeTrackers oracle _ _).1 = _
    unfold writeTrackers findSnapshot
    rw [writeTrackersGo_token_holders]
    show (updateTokenHolderSnapshot oracle.snapOk _ db).1.token_holders.find? _ = _
    rw [hok]
    exact findSnapshot_update mint (discoverSnapshot mint top_n parsed supply now) db rfl
  · show ((pySortedDesc (discoverHolders (supplyDecimals supply) parsed)).take top_n).Sorted
      (fun a b => b.balance ≤ a.balance)
    exact List.Pairwise.sublist (List.take_sublist top_n _)
      (pySortedDesc_sorted (discoverHolders (supplyDecimals supply) parsed))
  · show ((pySortedDesc (discoverHolders (supplyDecimals supply) parsed)).take top_n).length ≤
      top_n
    rw [List.length_take]
    exact min_le_left _ _

/-- C3 witness: one account of owner `A`, supply known with 0 decimals, all
writes succeeding, starting from an empty store. -/
theorem c3_snapshot_sorted_truncated_witness :
    (([⟨"pk1", some "A", some 100⟩] : List RawAccount) ≠ [] ∧
      parseAll [⟨"pk1", some "A", some 100⟩] = some [⟨"pk1", "A", 100⟩] ∧
      (⟨true, fun _ => true⟩ : DbOracle).snapOk = true) ∧
    findSnapshot "M" (discover_top_wallets "M" 100 (Except.ok (some [⟨"pk1", some "A", some 100⟩]))
        (some ⟨100, 0⟩) 7 ⟨true, fun _ => true⟩ ⟨[], []⟩).db =
      some (discoverSnapshot "M" 100 [⟨"pk1", "A", 100⟩] (some ⟨100, 0⟩) 7) := by
  refine ⟨⟨by decide, by decide, rfl⟩, ?_⟩
  exact (c3_snapshot_sorted_truncated "M" 100 [⟨"pk1", some "A", some 100⟩]
    [⟨"pk1", "A", 100⟩] (some ⟨100, 0⟩) 7 ⟨true, fun _ => true⟩ ⟨[], []⟩
    (by decide) (by decide) rfl).1

/-- C5 counterexample: a run in which every chain query succeeds but the
snapshot upsert fails inside the persistence gateway (the gateway catches and
logs the error and returns `False`, so discovery continues) both has an error
occur during the run and mutates persisted state: the wallet-tracker upserts
still run, so the wallets collection changes while the snapshot does not —
persisted state is not left exactly as it was before the run. -/
theorem c5_counterexample :
    (discover_top_wallets "M" 100 (Except.ok (some [⟨"pk1", some "A", some 100⟩]))
        (some ⟨100, 0⟩) 0 ⟨false, fun _ => true⟩ ⟨[], []⟩).errored = true ∧
    (discover_top_wallets "M" 100 (Except.ok (some [⟨"pk1", some "A", some 100⟩]))
        (some ⟨100, 0⟩) 0 ⟨false, fun _ => true⟩ ⟨[], []⟩).db ≠ (⟨[], []⟩ : DbState) := by
  have hrun := discover_success_db "M" 100 [⟨"pk1", some "A", some 100⟩] [⟨"pk1", "A", 100⟩]
    (some ⟨100, 0⟩) 0 ⟨false, fun _ => true⟩ ⟨[], []⟩ (by decide) (by decide)
  have hsnap : discoverSnapshot "M" 100 [⟨"pk1", "A", 100⟩] (some ⟨100, 0⟩) 0 =
      ⟨"M", [⟨"A", "pk1", 100, 100, 0⟩], 100, 1, 0⟩ := by
    unfold discoverSnapshot
    simp [discoverHolders, aggregate, addAcct, uiAmt, toHolder, pySortedDesc, insertDesc,
      supplyDecimals, supplyTotal]
  rw [hrun, hsnap]
  constructor
  · rfl
  · intro hcontra
    have h2 := congrArg DbState.wallets hcontra
    simp [writeTrackers, writeTrackersGo, updateOrInsertWalletTracker,
      updateTokenHolderSnapshot] at h2

/-- C5 (amended): every exception raised inside `discover_top_wallets`'s
`try` block — a chain-query failure (including rate-limit exhaustion) or an
account parse failure — is caught by the trailing `except` clauses, no
exception escapes (the embedding is total), and such an abort happens before
any persistence write, so the holder snapshot and every wallet-tracker
record are left exactly as they were before the run. Errors inside
persistence-gateway writes, by contrast, are caught and logged by the
gateway itself, do not abandon the run, and can leave state partially
updated (see the counterexample). -/
theorem c5_abort_preserves_state (mint : String) (top_n : Nat)
    (rpc : Except RpcFailure (Option (List RawAccount)))
    (supply : Option SupplyInfo) (now : Nat) (oracle : DbOracle) (db : DbState) :
    ((discover_top_wallets mint top_n rpc supply now oracle db).aborted = true →
      (discover_top_wallets mint top_n rpc supply now oracle db).db = db ∧
      (discover_top_wallets mint top_n rpc supply now oracle db).errored = true) ∧
    (∀ f : RpcFailure, rpc = Except.error f →
      (discover_top_wallets mint top_n rpc supply now oracle db).aborted = true) ∧
    (∀ accts : List RawAccount, rpc = Except.ok (some accts) → accts ≠ [] →
      parseAll accts = none →
      (discover_top_wallets mint top_n rpc supply now oracle db).aborted = true) := by
  cases rpc with
  | error f =>
    refine ⟨fun _ => ⟨rfl, rfl⟩, fun _ _ => rfl, fun accts hcontra => ?_⟩
    exact absurd hcontra (by simp)
  | ok acctOpt =>
    by_cases hie : (acctOpt.getD []).isEmpty = true
    · refine ⟨?_, ?_, ?_⟩
      · intro habort
        have : (discover_top_wallets mint top_n (Except.ok acctOpt) supply now
            oracle db).aborted = false := by
          unfold discover_top_wallets
          simp [hie]
        rw [habort] at this
        exact absurd this (by simp)
      · intro f hcontra
        exact absurd hcontra (by simp)
      · intro accts hacc hne _
        have : acctOpt = some accts := by
          injection hacc with h
        rw [this] at hie
        simp only [Option.getD_some] at hie
        rw [List.isEmpty_iff] at hie
        exact absurd hie hne
    · have hie' : (acctOpt.getD []).isEmpty = false := by simpa using hie
      cases hpa : parseAll (acctOpt.getD []) with
      | none =>
        refine ⟨?_, fun f hcontra => absurd hcontra (by simp), fun accts hacc hne hpn => ?_⟩
        · intro _
          constructor <;>
            (unfold discover_top_wallets; simp [hie', hpa])
        · unfold discover_top_wallets
          simp [hie', hpa]
      | some parsed =>
        refine ⟨?_, fun f hcontra => absurd hcontra (by simp), fun accts hacc hne hpn => ?_⟩
        · intro habort
          have : (discover_top_wallets mint top_n (Except.ok acctOpt) supply now
              oracle db).aborted = false := by
            unfold discover_top_wallets
            simp [hie', hpa]
          rw [habort] at this
          exact absurd this (by simp)
        · have : acctOpt = some accts := by
            injection hacc with h
          rw [this] at hpa
          simp only [Option.getD_some] at hpa
          rw [hpn] at hpa
          exact absurd hpa (by simp)

/-- C5 amended-claim witness: a failed chain query aborts the run and leaves
the (empty) store untouched with the error flagged. -/
theorem c5_abort_preserves_state_witness :
    (discover_top_wallets "M" 100 (Except.error ⟨503, "down"⟩) none 0
        ⟨true, fun _ => true⟩ ⟨[], []⟩).aborted = true ∧
    (discover_top_wallets "M" 100 (Except.error ⟨503, "down"⟩) none 0
        ⟨true, fun _ => true⟩ ⟨[], []⟩).db = (⟨[], []⟩ : DbState) ∧
    (discover_top_wallets "M" 100 (Except.error ⟨503, "down"⟩) none 0
        ⟨true, fun _ => true⟩ ⟨[], []⟩).errored = true := by
  have h := c5_abort_preserves_state "M" 100 (Except.error ⟨503, "down"⟩) none 0
    ⟨true, fun _ => true⟩ ⟨[], []⟩
  have habort := h.2.1 ⟨503, "down"⟩ rfl
  exact ⟨habort, (h.1 habort).1, (h.1 habort).2⟩

/-- C10: when the chain query for token accounts returns an empty or absent
result, discovery returns early without error and writes nothing: the
database state (holder snapshots and wallet trackers) is returned unchanged,
no error is flagged, and the run is not an exception abort — so the prior
snapshot for the mint remains and an empty holder list is never stored. -/
theorem c10_empty_result_no_write (mint : String) (top_n : Nat)
    (rpc : Except RpcFailure (Option (List RawAccount)))
    (supply : Option SupplyInfo) (now : Nat) (oracle : DbOracle) (db : DbState)
    (h : rpc = Except.ok none ∨ rpc = Except.ok (some ([] : List RawAccount))) :
    discover_top_wallets mint top_n rpc supply now oracle db = ⟨db, false, false⟩ := by
  rcases h with h | h <;> subst h <;> rfl

/-- C10 witness: a JSON `null` result returns the prior store unchanged. -/
theorem c10_empty_result_no_write_witness :
    ((Except.ok none : Except RpcFailure (Option (List RawAccount))) = Except.ok none ∨
      (Except.ok none : Except RpcFailure (Option (List RawAccount))) =
        Except.ok (some [])) ∧
    discover_top_wallets "M" 100 (Except.ok none) none 3 ⟨true, fun _ => true⟩
        ⟨[⟨"M", [], 0, 0, 0⟩], []⟩ =
      ⟨⟨[⟨"M", [], 0, 0, 0⟩], []⟩, false, false⟩ :=
  ⟨Or.inl rfl, c10_empty_result_no_write "M" 100 (Except.ok none) none 3
    ⟨true, fun _ => true⟩ ⟨[⟨"M", [], 0, 0, 0⟩], []⟩ (Or.inl rfl)⟩


end TokenWise
